import Mathlib

/-
Shallow embedding of the AFQMC driver code of the pauxy repository.

Source files embedded here:
  * afqmcpy/qmc.py            (do_qmc driver loop)
  * pauxy/qmc/afqmc.py        (AFQMC.run driver loop, AFQMC.determine_dtype)
  * pauxy/trial_wavefunction.py (UHF.__init__ error handling, UHF.find_uhf_wfn)

Floating point scalars (walker weights, energies, time step) are modelled as
rationals; the value exp(dt * Re(E_T)) computed by math.exp in the source is
passed in as an explicit rational parameter cfac, since only its multiplicative
use matters to the properties considered here.  Determinant matrices and the
external numerical kernels acting on them (propagate_walker, reortho,
diagonalisation, local energy) are abstracted over: they are collaborator
functions supplied as parameters, matching the narrow interfaces the code uses.
-/

namespace Pauxy

/-- Python range(a, b): the list a, a+1, ..., b-1. -/
def pyRange (a b : Nat) : List Nat := List.range' a (b - a)

/-- The step indices executed by the afqmcpy driver loop:
for step in range(1, state.qmc.nsteps)  (afqmcpy/qmc.py line 38). -/
def doQmcSteps (nsteps : Nat) : List Nat := pyRange 1 nsteps

/-- The step indices executed by the pauxy driver loop:
for step in range(1, self.qmc.nsteps + 1)  (pauxy/qmc/afqmc.py line 145). -/
def afqmcRunSteps (nsteps : Nat) : List Nat := pyRange 1 (nsteps + 1)

/-- The weight threshold 1e-8 appearing in the propagation guard of both
driver loops. -/
def weightThreshold : ℚ := 1 / 100000000

/-- A walker: a scalar weight, abstract determinant data of type D (the pair
of Slater determinant matrices; their contents are irrelevant to the driver
logic embedded here), and the alive flag used by the pauxy driver. -/
structure Walker (D : Type) where
  weight : ℚ
  det : D
  alive : Bool

/-- The per-step context of the driver loop, with the external collaborator
kernels supplied as functions. cfac is the value exp(dt * Re(E_T)) of the
constant reweighting factor for the current step. -/
structure StepCtx (D : Type) where
  cfac : ℚ
  nstblz : Nat
  importance_sampling : Bool
  prop : Walker D → Walker D
  reorthoFn : D → D × ℚ

/-- afqmcpy/qmc.py lines 43-44:
if abs(w.weight) > 1e-8: state.propagators.propagate_walker(w, state).
Returns the (possibly propagated) walker and whether the propagator was
invoked. -/
def doQmcPropagate {D : Type} (ctx : StepCtx D) (w : Walker D) :
    Walker D × Bool :=
  if weightThreshold < |w.weight| then (ctx.prop w, true) else (w, false)

/-- pauxy/qmc/afqmc.py lines 150-152:
if abs(w.weight) > 1e-8 and w.alive: self.propagators.propagate_walker(...). -/
def afqmcPropagate {D : Type} (ctx : StepCtx D) (w : Walker D) :
    Walker D × Bool :=
  if weightThreshold < |w.weight| ∧ w.alive = true then (ctx.prop w, true)
  else (w, false)

/-- afqmcpy/qmc.py line 46 and pauxy/qmc/afqmc.py line 154, applied outside
the guard, hence to every walker:
w.weight = w.weight * exp(dt * E_T.real). -/
def reweightPhase {D : Type} (ctx : StepCtx D) (w : Walker D) : Walker D :=
  { w with weight := w.weight * ctx.cfac }

/-- afqmcpy/qmc.py lines 49-52:
if step % nstblz == 0: detR = w.reortho(nup);
if not state.importance_sampling: w.weight = detR * w.weight. -/
def stabilizePhase {D : Type} (ctx : StepCtx D) (step : Nat) (w : Walker D) :
    Walker D :=
  if step % ctx.nstblz == 0 then
    let r := ctx.reorthoFn w.det
    let w1 : Walker D := { w with det := r.1 }
    if !ctx.importance_sampling then { w1 with weight := r.2 * w1.weight }
    else w1
  else w

/-- The complete per-walker body of one afqmcpy driver step
(afqmcpy/qmc.py lines 43-52): guarded propagation, unconditional constant
reweighting, cadenced restabilization.  The boolean records whether the
propagator was invoked on this walker in this step. -/
def doQmcStepWalker {D : Type} (ctx : StepCtx D) (step : Nat) (w : Walker D) :
    Walker D × Bool :=
  let p := doQmcPropagate ctx w
  (stabilizePhase ctx step (reweightPhase ctx p.1), p.2)

/-- The per-walker body of one pauxy driver step (pauxy/qmc/afqmc.py lines
150-154): guarded propagation then unconditional constant reweighting;
orthogonalisation happens outside the walker loop in pauxy. -/
def afqmcStepWalker {D : Type} (ctx : StepCtx D) (w : Walker D) :
    Walker D × Bool :=
  let p := afqmcPropagate ctx w
  (reweightPhase ctx p.1, p.2)

/-- afqmcpy/qmc.py line 53: bp_step = (step-1) % state.estimators.nprop_tot. -/
def bpStep (nprop_tot step : Nat) : Nat := (step - 1) % nprop_tot

/-- afqmcpy/qmc.py line 55: the history-buffer slot written every step when
back propagation is enabled, psi_hist[:, bp_step + 1] = copy.deepcopy(psi). -/
def bpWriteSlot (nprop_tot step : Nat) : Nat := bpStep nprop_tot step + 1

/-- afqmcpy/qmc.py line 58: s = bp_step - state.nback_prop + 1, a Python int
that may go negative, hence an integer here. -/
def bpStartIdx (nprop_tot nback_prop step : Nat) : ℤ :=
  (bpStep nprop_tot step : ℤ) - (nback_prop : ℤ) + 1

/-- afqmcpy/qmc.py line 59: e = bp_step + 1. -/
def bpEndIdx (nprop_tot step : Nat) : ℤ := (bpStep nprop_tot step : ℤ) + 1

/-- The index list lo, lo+1, ..., hi-1 selected by a Python slice lo:hi
(for 0 ≤ lo ≤ hi within bounds). -/
def pySlice (lo hi : ℤ) : List ℤ :=
  (List.range (hi - lo).toNat).map (fun (i : Nat) => lo + (i : ℤ))

/-- The history-buffer slots consumed as field samples by the
back-propagation reconstruction, psi_hist[:, s+1 : e+1]
(afqmcpy/qmc.py lines 67-68). -/
def bpFieldSlots (nprop_tot nback_prop step : Nat) : List ℤ :=
  pySlice (bpStartIdx nprop_tot nback_prop step + 1)
    (bpEndIdx nprop_tot step + 1)

/-- The estimator configuration flags of the afqmcpy state object that govern
the slot-0 resets of the history buffer (afqmcpy/qmc.py lines 54-86). -/
structure EstimatorFlags where
  back_propagation : Bool
  itcf : Bool
  calc_itcf : Bool
  nback_prop : Nat
  nprop_tot : Nat

/-- Whether the back-propagation finalization path fires at a given step:
state.back_propagation and step % state.nback_prop == 0
(afqmcpy/qmc.py lines 54, 56). -/
def bpFinalizes (f : EstimatorFlags) (step : Nat) : Bool :=
  f.back_propagation && (step % f.nback_prop == 0)

/-- Whether the ITCF finalization path fires at a given step:
state.estimators.calc_itcf and step % state.estimators.nprop_tot == 0
(afqmcpy/qmc.py line 80). -/
def itcfFinalizes (f : EstimatorFlags) (step : Nat) : Bool :=
  f.calc_itcf && (step % f.nprop_tot == 0)

/-- How many times one driver step resets slot 0 of the history buffer to a
deep copy of the current population.  In the source the back-propagation
branch resets it only under "if not state.itcf" (afqmcpy/qmc.py lines 73-79;
the indentation there is literally inconsistent, and this reading follows the
in-line comments: the reset is part of the not-itcf branch), while the ITCF
branch resets it unconditionally after computing the ITCF
(afqmcpy/qmc.py line 86). -/
def slotZeroResets (f : EstimatorFlags) (step : Nat) : Nat :=
  (if bpFinalizes f step && !f.itcf then 1 else 0) +
  (if itcfFinalizes f step then 1 else 0)

/-- The two energy scalars threaded through the driver loop: eT is the E_T
local variable used in the constant reweighting factor exp(dt * E_T.real),
meanLocalEnergy is state.mean_local_energy (afqmcpy) respectively
propagators.mean_local_energy (pauxy), the local-energy bound consumed by the
propagator. -/
structure EnergyState where
  eT : ℚ
  meanLocalEnergy : ℚ

/-- afqmcpy/qmc.py lines 87-94, the end-of-step energy bookkeeping:
if step % nmeasure == 0: E_T = eproj(...);
if step < nequilibrate: state.mean_local_energy = E_T.
The argument eproj is the just-computed mixed (projected) energy estimate. -/
def doQmcEnergyUpdate (nmeasure nequilibrate step : Nat) (eproj : ℚ)
    (st : EnergyState) : EnergyState :=
  let st1 := if step % nmeasure == 0 then { st with eT := eproj } else st
  if step < nequilibrate then { st1 with meanLocalEnergy := st1.eT } else st1

/-- pauxy/qmc/afqmc.py lines 162-169, the end-of-step energy bookkeeping:
if step % nupdate_shift == 0: E_T = projected_energy();
if step < nequilibrate: self.propagators.mean_local_energy = E_T. -/
def afqmcEnergyUpdate (nupdate_shift nequilibrate step : Nat) (eproj : ℚ)
    (st : EnergyState) : EnergyState :=
  let st1 := if step % nupdate_shift == 0 then { st with eT := eproj } else st
  if step < nequilibrate then { st1 with meanLocalEnergy := st1.eT } else st1

/-- Whether a list of characters occurs at the start of another. -/
def listStarts : List Char → List Char → Bool
  | [], _ => true
  | _ :: _, [] => false
  | a :: as, b :: bs => a == b && listStarts as bs

/-- Whether a list of characters occurs contiguously inside another: the
semantics of the Python substring test "needle in haystack". -/
def listInside (n : List Char) : List Char → Bool
  | [] => listStarts n []
  | c :: t => listStarts n (c :: t) || listInside n t

/-- The result of numpy ndarray.all() on the ktwist array: a numpy boolean
(true when every element is nonzero); crucially it is always a value and
never Python None. -/
def ndarrayAll (elems : List ℚ) : Option Bool :=
  some (elems.all (fun q => decide (q ≠ 0)))

/-- Python "x is not None". -/
def pyIsNotNone {α : Type} (x : Option α) : Bool := x.isSome

/-- pauxy/qmc/afqmc.py lines 193-206, AFQMC.determine_dtype:
hs_type = propagator.get('hubbard_stratonovich', 'discrete');
continuous = 'continuous' in hs_type;
twist = system.ktwist.all() is not None;
return continuous or twist.
The propagator option is the optional string value under the
hubbard_stratonovich key, and ktwist Hamiltonian twist entries are passed as
the list of components of the ktwist array. -/
def determine_dtype (propagator_hs : Option (List Char)) (ktwist : List ℚ) :
    Bool :=
  let hs_type := propagator_hs.getD (String.toList "discrete")
  let continuous := listInside (String.toList "continuous") hs_type
  let twist := pyIsNotNone (ndarrayAll ktwist)
  continuous || twist

/-- The fields of the Hubbard system object read or written by
UHF.find_uhf_wfn: the interaction strength U (written twice: set to ueff on
entry, restored to its old value before returning) and the dimensions read
when initialising trial states. -/
structure UhfHSystem where
  U : ℚ
  nbasis : Nat
  nup : Nat
  ndown : Nat

/-- The numerical kernels invoked by UHF.find_uhf_wfn, abstracted over the
wavefunction data W (the trial determinant matrix) and density data N (site
density arrays).  Modelled from the spec: pauxy.estimators.local_energy and
pauxy.estimators.gab are not part of the embedded sources; per the spec they
are external collaborators, pure evaluation functions
local_energy(system, greens_function) -> (total, kinetic, potential) that do
not mutate the system.  The remaining kernels (initialise, density,
diagonalise_mean_field, self_consistant, mix_density) are methods of the UHF
class in pauxy/trial_wavefunction.py, none of which assigns to system.U; all
are therefore supplied as functions of their read data.  The first argument
of initialise is the attempt index, modelling the per-attempt fresh random
starting point. -/
structure UhfKernels (W N : Type) where
  initialise : Nat → Nat → Nat → Nat → Bool → W × ℚ
  densityUp : W → N
  densityDown : W → N
  diagMF : UhfHSystem → ℚ → N → N → W → N × N × List ℚ × List ℚ × W
  localEnergy : UhfHSystem → W → ℚ
  selfCons : ℚ → ℚ → N → N → N → N → Nat → ℚ → Bool
  mix : N → N → ℚ → N

/-- The inner self-consistency loop of UHF.find_uhf_wfn
(pauxy/trial_wavefunction.py lines 211-242): iterate up to nit_max times;
each pass diagonalises the mean-field Hamiltonian (updating self.trial),
computes the new energy from the resulting Greens functions, and either
breaks on convergence (returning the converged energy, the eigenvalue list
e_up ++ e_down and the trial state) or mixes densities and continues.
Arguments after deps: remaining iterations, current iteration index it,
self.trial, niup, nidown, niup_old, nidown_old, eold. -/
def uhfInnerLoop {W N : Type} (K : UhfKernels W N) (sys : UhfHSystem)
    (ueff alpha deps : ℚ) :
    Nat → Nat → W → N → N → N → N → ℚ →
      Option (ℚ × List ℚ × W) × W × N × N
  | 0, _, trial, niup, nidown, _, _, _ => (none, trial, niup, nidown)
  | rem + 1, it, trial, niup, nidown, niup_old, nidown_old, eold =>
    let r := K.diagMF sys ueff niup nidown trial
    let niup1 := r.1
    let nidown1 := r.2.1
    let e_up := r.2.2.1
    let e_down := r.2.2.2.1
    let trial1 := r.2.2.2.2
    let enew := K.localEnergy sys trial1
    let sc := K.selfCons enew eold niup1 niup_old nidown1 nidown_old it deps
    if sc then (some (enew, e_up ++ e_down, trial1), trial1, niup1, nidown1)
    else
      uhfInnerLoop K sys ueff alpha deps rem (it + 1) trial1
        (K.mix niup1 niup_old alpha) (K.mix nidown1 nidown_old alpha)
        niup1 nidown1 enew

/-- The outer loop over random starting attempts of UHF.find_uhf_wfn
(pauxy/trial_wavefunction.py lines 203-244), threading the list of local
minima and the currently accepted wavefunction.  On convergence the result is
accepted when attempt == 0, or when every previously recorded minimum exceeds
the new energy by more than deps (the elif all(minima - enew > deps) test).
Arguments after nit_max: remaining attempts, attempt index, minima, accept. -/
def uhfOuterLoop {W N : Type} (K : UhfKernels W N) (sys : UhfHSystem)
    (cplx : Bool) (ueff alpha deps : ℚ) (nit_max : Nat) :
    Nat → Nat → List ℚ → Option (W × List ℚ) →
      List ℚ × Option (W × List ℚ)
  | 0, _, minima, accept => (minima, accept)
  | rem + 1, attempt, minima, accept =>
    let ini := K.initialise attempt sys.nbasis sys.nup sys.ndown cplx
    let trial0 := ini.1
    let eold := ini.2
    let niup := K.densityUp trial0
    let nidown := K.densityDown trial0
    let inner :=
      uhfInnerLoop K sys ueff alpha deps nit_max 0 trial0 niup nidown
        niup nidown eold
    match inner.1 with
    | some c =>
      let enew := c.1
      let eacc := c.2.1
      let trialC := c.2.2
      if attempt == 0 then
        uhfOuterLoop K sys cplx ueff alpha deps nit_max rem (attempt + 1)
          (minima ++ [enew]) (some (trialC, eacc))
      else if minima.all (fun m => decide (m - enew > deps)) then
        uhfOuterLoop K sys cplx ueff alpha deps nit_max rem (attempt + 1)
          (minima ++ [enew]) (some (trialC, eacc))
      else
        uhfOuterLoop K sys cplx ueff alpha deps nit_max rem (attempt + 1)
          minima accept
    | none =>
      uhfOuterLoop K sys cplx ueff alpha deps nit_max rem (attempt + 1)
        minima accept

/-- How UHF.find_uhf_wfn ends: a normal success return
(psi_accept, e_accept, min(minima), error=False), the
except UnboundLocalError return with error=True, or an uncaught ValueError
raised by min(minima) on an empty minima list at line 247 (in which case the
function raises instead of returning). -/
inductive UhfReturn (W : Type) where
  | ok : W → List ℚ → ℚ → UhfReturn W
  | errorReturn : UhfReturn W
  | raised : UhfReturn W

/-- UHF.find_uhf_wfn (pauxy/trial_wavefunction.py lines 195-253): record
uold = system.U, set system.U = ueff, run the self-consistency search with
the modified system, restore system.U = uold (line 246), then return.
The returned pair is the system object as left behind by the call together
with how the call ended. -/
def find_uhf_wfn {W N : Type} (K : UhfKernels W N) (sys : UhfHSystem)
    (cplx : Bool) (ueff : ℚ) (ninit nit_max : Nat) (alpha deps : ℚ) :
    UhfHSystem × UhfReturn W :=
  let uold := sys.U
  let sys1 : UhfHSystem := { sys with U := ueff }
  let search := uhfOuterLoop K sys1 cplx ueff alpha deps nit_max ninit 0 [] none
  let minima := search.1
  let accept := search.2
  let sys2 : UhfHSystem := { sys1 with U := uold }
  match minima, accept with
  | [], _ => (sys2, UhfReturn.raised)
  | m :: ms, some acc => (sys2, UhfReturn.ok acc.1 acc.2 (ms.foldl min m))
  | _ :: _, none => (sys2, UhfReturn.errorReturn)

/-- Outcome of the error-handling block of UHF.__init__. -/
structure UHFInitOutcome where
  warned : Bool
  exited : Bool

/-- pauxy/trial_wavefunction.py lines 185-187:
if self.error and not parallel:
  warnings.warn('Error in constructing trial wavefunction. Exiting');
  sys.exit(). -/
def uhfErrorHandling (error parallel : Bool) : UHFInitOutcome :=
  if error && !parallel then { warned := true, exited := true }
  else { warned := false, exited := false }

/-! Helper lemmas. -/

theorem length_pySlice (lo hi : ℤ) : (pySlice lo hi).length = (hi - lo).toNat := by
  unfold pySlice
  rw [List.length_map, List.length_range]

theorem mem_pySlice {lo hi x : ℤ} :
    x ∈ pySlice lo hi ↔ lo ≤ x ∧ x < hi := by
  simp only [pySlice, List.mem_map, List.mem_range]
  constructor
  · rintro ⟨i, hi1, rfl⟩
    rcases le_or_lt (hi - lo) 0 with hneg | hpos
    · rw [Int.toNat_of_nonpos hneg] at hi1
      omega
    · have hcast : ((hi - lo).toNat : ℤ) = hi - lo := Int.toNat_of_nonneg (le_of_lt hpos)
      have : (i : ℤ) < hi - lo := by
        rw [← hcast]
        exact_mod_cast hi1
      omega
  · rintro ⟨h1, h2⟩
    refine ⟨(x - lo).toNat, ?_, ?_⟩
    · have hcast : ((x - lo).toNat : ℤ) = x - lo := Int.toNat_of_nonneg (by omega)
      have hcast2 : ((hi - lo).toNat : ℤ) = hi - lo := Int.toNat_of_nonneg (by omega)
      omega
    · have hcast : ((x - lo).toNat : ℤ) = x - lo := Int.toNat_of_nonneg (by omega)
      omega

theorem bpStep_lower_bound {b m step : Nat} (hb : 0 < b) (hd : b ∣ m)
    (h1 : 1 ≤ step) (hs : step % b = 0) : b - 1 ≤ bpStep m step := by
  have hmod : bpStep m step % b = (step - 1) % b :=
    Nat.mod_mod_of_dvd (step - 1) hd
  have hstep : (step - 1) % b = b - 1 := by
    obtain ⟨q, rfl⟩ := Nat.dvd_of_mod_eq_zero hs
    have hq : 1 ≤ q := by
      rcases Nat.eq_zero_or_pos q with h | h
      · subst h; omega
      · exact h
    have hrw : b * q - 1 = b * (q - 1) + (b - 1) := by
      have hq1 : q - 1 + 1 = q := by omega
      have hmul : b * q = b * (q - 1) + b := by
        calc b * q = b * (q - 1 + 1) := by rw [hq1]
          _ = b * (q - 1) + b * 1 := by rw [Nat.mul_add]
          _ = b * (q - 1) + b := by rw [Nat.mul_one]
      omega
    rw [hrw, Nat.mul_add_mod]
    exact Nat.mod_eq_of_lt (by omega)
  have hle : bpStep m step % b ≤ bpStep m step := Nat.mod_le _ _
  omega

/-! Claim theorems. -/

/-- Claim C5, counterexample: the claim asserts that the driver loops execute
the per-step body for steps 1 through nsteps inclusive; the afqmcpy loop
(for step in range(1, state.qmc.nsteps)) stops at nsteps - 1.  With
nsteps = 3 it executes exactly the steps 1 and 2, step 3 is never executed,
and only 2 iterations occur rather than 3. -/
theorem c5_loop_bounds_counterexample :
    doQmcSteps 3 = [1, 2] ∧ (3 : Nat) ∉ doQmcSteps 3 ∧
      (doQmcSteps 3).length ≠ 3 := by
  decide

/-- Claim C5, amended: the pauxy driver loop executes the per-step body
exactly for steps 1 through nsteps inclusive, while the afqmcpy driver loop
executes it exactly for steps 1 through nsteps - 1; both iterate over a
fixed-length list of step indices determined solely by the configured step
count (no early-exit or convergence-based stopping condition). -/
theorem c5_loop_bounds (n : Nat) :
    afqmcRunSteps n = List.range' 1 n ∧
    (afqmcRunSteps n).length = n ∧
    (∀ k, k ∈ afqmcRunSteps n ↔ 1 ≤ k ∧ k ≤ n) ∧
    (doQmcSteps n).length = n - 1 ∧
    (∀ k, k ∈ doQmcSteps n ↔ 1 ≤ k ∧ k ≤ n - 1) := by
  refine ⟨by simp [afqmcRunSteps, pyRange], ?_, ?_, ?_, ?_⟩
  · simp [afqmcRunSteps, pyRange]
  · intro k
    simp only [afqmcRunSteps, pyRange, List.mem_range'_1]
    omega
  · simp [doQmcSteps, pyRange]
  · intro k
    simp only [doQmcSteps, pyRange, List.mem_range'_1]
    omega

/-- Instantiation of the amended C5 statement at nsteps = 3. -/
theorem c5_loop_bounds_witness :
    afqmcRunSteps 3 = List.range' 1 3 ∧ 3 ∈ afqmcRunSteps 3 := by
  refine ⟨(c5_loop_bounds 3).1, ?_⟩
  exact ((c5_loop_bounds 3).2.2.1 3).mpr (by decide)

/-- Claim C7: the propagation guard is strict, so a walker whose weight
magnitude is exactly 1e-8 is not propagated and left untouched by the
propagation phase; and the propagator is invoked exactly on walkers with
weight magnitude strictly above 1e-8 (and, in the pauxy driver where the
alive flag exists, alive == true). -/
theorem c7_propagation_guard {D : Type} (ctx : StepCtx D) (w : Walker D) :
    ((afqmcPropagate ctx w).2 = true ↔
      weightThreshold < |w.weight| ∧ w.alive = true) ∧
    ((doQmcPropagate ctx w).2 = true ↔ weightThreshold < |w.weight|) ∧
    (|w.weight| = weightThreshold →
      afqmcPropagate ctx w = (w, false) ∧ doQmcPropagate ctx w = (w, false)) := by
  refine ⟨?_, ?_, ?_⟩
  · unfold afqmcPropagate
    split <;> simp_all
  · unfold doQmcPropagate
    split <;> simp_all
  · intro h
    have hnot : ¬ weightThreshold < |w.weight| := by rw [h]; exact lt_irrefl _
    constructor
    · unfold afqmcPropagate
      simp [hnot]
    · unfold doQmcPropagate
      simp [hnot]

/-- A concrete step context: constant factor exp(dt * Re(E_T)) = 2
(attained at dt * Re(E_T) = log 2), stabilization every 5 steps, no
importance sampling, identity propagator, reorthogonalization with
detR = 1. -/
def ctx0 : StepCtx Unit :=
  { cfac := 2, nstblz := 5, importance_sampling := false,
    prop := fun w => w, reorthoFn := fun d => (d, 1) }

/-- A walker whose weight magnitude sits exactly at the 1e-8 threshold. -/
def w0 : Walker Unit := { weight := 1 / 100000000, det := (), alive := true }

/-- Witness for C7 at the boundary walker: its weight magnitude equals the
threshold and neither driver invokes the propagator on it. -/
theorem c7_propagation_guard_witness :
    afqmcPropagate ctx0 w0 = (w0, false) ∧
      doQmcPropagate ctx0 w0 = (w0, false) :=
  (c7_propagation_guard ctx0 w0).2.2
    (by rw [show w0.weight = weightThreshold from rfl]
        exact abs_of_nonneg (by norm_num [weightThreshold]))

/-- Claim C8: if the UHF self-consistency search reports an error and the run
is not parallel, UHF.__init__ warns and exits the process; in a parallel run
the process is never exited there. -/
theorem c8_uhf_error_handling (error parallel : Bool) :
    (uhfErrorHandling error parallel).exited = (error && !parallel) ∧
    (uhfErrorHandling error parallel).warned = (error && !parallel) ∧
    (uhfErrorHandling error true).exited = false := by
  cases error <;> cases parallel <;> decide

/-- Claim C9: AFQMC.determine_dtype returns True for every propagator option
dictionary and every ktwist array, because system.ktwist.all() is a numpy
boolean and hence never None, making the twist test vacuously true. -/
theorem c9_determine_dtype_always_true (hs : Option (List Char))
    (ktwist : List ℚ) :
    determine_dtype hs ktwist = true ∧
      pyIsNotNone (ndarrayAll ktwist) = true := by
  refine ⟨?_, rfl⟩
  unfold determine_dtype
  simp [pyIsNotNone, ndarrayAll]

/-- The weight of the boundary walker w0 sits exactly at the threshold. -/
theorem abs_w0_weight : |w0.weight| = weightThreshold := by
  rw [show w0.weight = weightThreshold from rfl]
  exact abs_of_nonneg (by norm_num [weightThreshold])

/-- Claim C1, counterexample: the claim asserts that a step leaves a
below-threshold walker with its weight unchanged.  For the boundary walker
(weight 1e-8, at the threshold hence skipped for propagation) and constant
factor exp(dt * Re(E_T)) = 2, the step multiplies the weight to 2e-8: the
constant reweighting factor is applied unconditionally, skipped walkers
included (afqmcpy/qmc.py line 46 and pauxy/qmc/afqmc.py line 154 sit outside
the propagation guard). -/
theorem c1_frozen_weight_counterexample :
    |w0.weight| ≤ weightThreshold ∧
    (doQmcStepWalker ctx0 1 w0).2 = false ∧
    (doQmcStepWalker ctx0 1 w0).1.weight = 2 / 100000000 ∧
    (doQmcStepWalker ctx0 1 w0).1.weight ≠ w0.weight ∧
    (afqmcStepWalker ctx0 w0).1.weight ≠ w0.weight := by
  have hnot : ¬ weightThreshold < |w0.weight| := by
    rw [abs_w0_weight]
    exact lt_irrefl _
  refine ⟨le_of_eq abs_w0_weight, ?_, ?_, ?_, ?_⟩
  · simp [doQmcStepWalker, doQmcPropagate, hnot]
  · simp [doQmcStepWalker, doQmcPropagate, hnot, reweightPhase, stabilizePhase,
      ctx0]
    norm_num [w0]
  · simp [doQmcStepWalker, doQmcPropagate, hnot, reweightPhase, stabilizePhase,
      ctx0]
    norm_num [w0]
  · simp [afqmcStepWalker, afqmcPropagate, hnot, reweightPhase, ctx0]
    norm_num [w0]

/-- Claim C1, amended: a walker whose weight magnitude is at or below the
1e-8 threshold at the start of a step is skipped for propagation (the
propagator is never invoked on it), but its weight is still multiplied by the
constant reweighting factor exp(dt * Re(E_T)), which both drivers apply
unconditionally to every walker; on non-stabilization steps this factor is
the only weight change of the step. -/
theorem c1_skipped_walker_reweighted {D : Type} (ctx : StepCtx D) (step : Nat)
    (w : Walker D) (h : |w.weight| ≤ weightThreshold) :
    (doQmcStepWalker ctx step w).2 = false ∧
    (afqmcStepWalker ctx w).2 = false ∧
    (afqmcStepWalker ctx w).1.weight = w.weight * ctx.cfac ∧
    (step % ctx.nstblz ≠ 0 →
      (doQmcStepWalker ctx step w).1.weight = w.weight * ctx.cfac) := by
  have hnot : ¬ weightThreshold < |w.weight| := not_lt.mpr h
  refine ⟨?_, ?_, ?_, fun hstep => ?_⟩
  · simp [doQmcStepWalker, doQmcPropagate, hnot]
  · simp [afqmcStepWalker, afqmcPropagate, hnot]
  · simp [afqmcStepWalker, afqmcPropagate, hnot, reweightPhase]
  · simp [doQmcStepWalker, doQmcPropagate, hnot, reweightPhase, stabilizePhase,
      hstep]

/-- Witness for the amended C1 at the boundary walker and constant factor 2,
on the non-stabilization step 1. -/
theorem c1_skipped_walker_reweighted_witness :
    (doQmcStepWalker ctx0 1 w0).2 = false ∧
    (doQmcStepWalker ctx0 1 w0).1.weight = w0.weight * ctx0.cfac :=
  ⟨(c1_skipped_walker_reweighted ctx0 1 w0 (le_of_eq abs_w0_weight)).1,
   (c1_skipped_walker_reweighted ctx0 1 w0 (le_of_eq abs_w0_weight)).2.2.2
     (by decide)⟩

/-- Claim C2: with back propagation enabled, every step writes the current
population into history-buffer slot ((step - 1) mod nprop_tot) + 1, and at
every back-propagation finalization step (step a positive multiple of
nback_prop, with the buffer block a whole number of depths long) the
reconstruction consumes exactly nback_prop buffered slots, namely slots
s + 1 through e inclusive of both endpoints, and slot 0 is never among
them. -/
theorem c2_history_buffer_indexing (nprop_tot nback_prop step : Nat)
    (hb : 0 < nback_prop) (hd : nback_prop ∣ nprop_tot)
    (h1 : 1 ≤ step) (hs : step % nback_prop = 0) :
    bpWriteSlot nprop_tot step = (step - 1) % nprop_tot + 1 ∧
    (bpFieldSlots nprop_tot nback_prop step).length = nback_prop ∧
    (∀ x : ℤ, x ∈ bpFieldSlots nprop_tot nback_prop step ↔
      bpStartIdx nprop_tot nback_prop step + 1 ≤ x ∧
        x ≤ bpEndIdx nprop_tot step) ∧
    (0 : ℤ) ∉ bpFieldSlots nprop_tot nback_prop step := by
  have hlow := bpStep_lower_bound hb hd h1 hs
  have hlowZ : (nback_prop : ℤ) - 1 ≤ (bpStep nprop_tot step : ℤ) := by
    omega
  refine ⟨rfl, ?_, ?_, ?_⟩
  · rw [bpFieldSlots, length_pySlice]
    unfold bpStartIdx bpEndIdx
    omega
  · intro x
    rw [bpFieldSlots, mem_pySlice]
    unfold bpStartIdx bpEndIdx
    omega
  · intro hmem
    rw [bpFieldSlots, mem_pySlice] at hmem
    unfold bpStartIdx bpEndIdx at hmem
    omega

/-- Witness for C2 with buffer length 4, depth 2, at finalization step 6:
the write slot is 2, two slots are consumed, and slot 0 is not consumed. -/
theorem c2_history_buffer_indexing_witness :
    bpWriteSlot 4 6 = (6 - 1) % 4 + 1 ∧
    (bpFieldSlots 4 2 6).length = 2 ∧
    (0 : ℤ) ∉ bpFieldSlots 4 2 6 :=
  ⟨(c2_history_buffer_indexing 4 2 6 (by decide) (by decide) (by decide)
      (by decide)).1,
   (c2_history_buffer_indexing 4 2 6 (by decide) (by decide) (by decide)
      (by decide)).2.1,
   (c2_history_buffer_indexing 4 2 6 (by decide) (by decide) (by decide)
      (by decide)).2.2.2⟩

/-- An estimator configuration with both back propagation and ITCF active,
depth 2 and buffer length 4. -/
def bugFlags : EstimatorFlags :=
  { back_propagation := true, itcf := true, calc_itcf := true,
    nback_prop := 2, nprop_tot := 4 }

/-- Claim C3, exhibiting the code bug: with back propagation and ITCF both
active (depth 2, buffer length 4), the back-propagation finalization path
fires at step 2 yet slot 0 is reset zero times in that step (the reset in the
back-propagation branch is guarded by "if not state.itcf" and the ITCF branch
does not fire since 2 mod 4 is nonzero); moreover with the itcf flag off but
calc_itcf on, step 4 resets slot 0 twice.  The spec requires exactly one
reset whenever either finalization path fires. -/
theorem c3_slot_zero_reset_bug :
    bpFinalizes bugFlags 2 = true ∧
    itcfFinalizes bugFlags 2 = false ∧
    slotZeroResets bugFlags 2 = 0 ∧
    bpFinalizes { bugFlags with itcf := false } 4 = true ∧
    slotZeroResets { bugFlags with itcf := false } 4 = 2 := by
  decide

/-- A concrete starting energy state for the C4 counterexample: E_T = 3
entering the step, with a different just-computed mixed estimate 7. -/
def e0 : EnergyState := { eT := 3, meanLocalEnergy := 0 }

/-- Claim C4, counterexample: with nmeasure = 2 (also nupdate_shift = 2),
nequilibrate = 5, at equilibration step 1 the just-computed mixed estimate 7
is not adopted as E_T: both drivers leave E_T at its old value 3 because the
E_T update is still guarded by the measurement cadence; during equilibration
only state.mean_local_energy (the local-energy bound) is forced to track
E_T. -/
theorem c4_equilibration_counterexample :
    1 < 5 ∧
    (doQmcEnergyUpdate 2 5 1 7 e0).eT = 3 ∧
    (afqmcEnergyUpdate 2 5 1 7 e0).eT = 3 ∧
    (3 : ℚ) ≠ 7 := by
  decide

/-- Claim C4, amended: while step < nequilibrate, the mean_local_energy bound
is updated every step to the current E_T (so after the step the two agree),
but the E_T used in the constant reweighting factor changes only on steps
that are multiples of the measurement interval (nmeasure in afqmcpy,
nupdate_shift in pauxy), where it becomes the just-computed mixed
estimate. -/
theorem c4_equilibration_tracking (nmeasure nequilibrate step : Nat)
    (eproj : ℚ) (st : EnergyState) (h : step < nequilibrate) :
    ((doQmcEnergyUpdate nmeasure nequilibrate step eproj st).meanLocalEnergy =
      (doQmcEnergyUpdate nmeasure nequilibrate step eproj st).eT) ∧
    (step % nmeasure ≠ 0 →
      (doQmcEnergyUpdate nmeasure nequilibrate step eproj st).eT = st.eT) ∧
    (step % nmeasure = 0 →
      (doQmcEnergyUpdate nmeasure nequilibrate step eproj st).eT = eproj) ∧
    ((afqmcEnergyUpdate nmeasure nequilibrate step eproj st).meanLocalEnergy =
      (afqmcEnergyUpdate nmeasure nequilibrate step eproj st).eT) ∧
    (step % nmeasure ≠ 0 →
      (afqmcEnergyUpdate nmeasure nequilibrate step eproj st).eT = st.eT) ∧
    (step % nmeasure = 0 →
      (afqmcEnergyUpdate nmeasure nequilibrate step eproj st).eT = eproj) := by
  by_cases hm : step % nmeasure = 0 <;>
    simp [doQmcEnergyUpdate, afqmcEnergyUpdate, h, hm]

/-- Witness for the amended C4 at nmeasure = 2, nequilibrate = 5, step 1. -/
theorem c4_equilibration_tracking_witness :
    ((doQmcEnergyUpdate 2 5 1 7 e0).meanLocalEnergy =
      (doQmcEnergyUpdate 2 5 1 7 e0).eT) ∧
    (doQmcEnergyUpdate 2 5 1 7 e0).eT = e0.eT :=
  ⟨(c4_equilibration_tracking 2 5 1 7 e0 (by decide)).1,
   (c4_equilibration_tracking 2 5 1 7 e0 (by decide)).2.1 (by decide)⟩

/-- Claim C6: on every step that is a multiple of nstblz, the walker
determinant is reorthogonalized (replaced by the orthonormalized matrix
returned by reortho), and the weight is multiplied by the returned detR
factor exactly when importance sampling is not in use; under importance
sampling the weight keeps the value the reweighting phase gave it. -/
theorem c6_stabilization_cadence {D : Type} (ctx : StepCtx D) (step : Nat)
    (w : Walker D) (h : step % ctx.nstblz = 0) :
    (doQmcStepWalker ctx step w).1.det =
      (ctx.reorthoFn (reweightPhase ctx (doQmcPropagate ctx w).1).det).1 ∧
    (doQmcStepWalker ctx step w).1.weight =
      (if ctx.importance_sampling = true then
        (reweightPhase ctx (doQmcPropagate ctx w).1).weight
      else
        (ctx.reorthoFn (reweightPhase ctx (doQmcPropagate ctx w).1).det).2 *
          (reweightPhase ctx (doQmcPropagate ctx w).1).weight) := by
  unfold doQmcStepWalker stabilizePhase
  cases him : ctx.importance_sampling <;> simp [h, him]

/-- A concrete stabilization context: constant factor 1, stabilization every
2 steps, no importance sampling, identity propagator, reorthogonalization
returning detR = 3. -/
def ctx1 : StepCtx Unit :=
  { cfac := 1, nstblz := 2, importance_sampling := false,
    prop := fun w => w, reorthoFn := fun d => (d, 3) }

/-- A live walker with weight 5, well above the threshold. -/
def w1 : Walker Unit := { weight := 5, det := (), alive := true }

/-- The weight of walker w1 is strictly above the threshold. -/
theorem w1_above_threshold : weightThreshold < |w1.weight| := by
  rw [show w1.weight = (5 : ℚ) from rfl, abs_of_nonneg (by norm_num : (0:ℚ) ≤ 5)]
  norm_num [weightThreshold]

/-- Witness for C6 at stabilization step 4 in context ctx1: the walker weight
becomes detR * (5 * 1) = 15 since importance sampling is off. -/
theorem c6_stabilization_cadence_witness :
    4 % ctx1.nstblz = 0 ∧ (doQmcStepWalker ctx1 4 w1).1.weight = 15 := by
  refine ⟨by decide, ?_⟩
  have h := (c6_stabilization_cadence ctx1 4 w1 (by decide)).2
  rw [h]
  simp [ctx1, doQmcPropagate, reweightPhase, w1_above_threshold]
  norm_num [w1]

/-- Claim C10: UHF.find_uhf_wfn returns the system object with U restored to
its entry value (and nothing else about the system changed), for every
collection of numerical kernels and on every way the call can end: the
success return, the error return, and the raise on an empty minima list. -/
theorem c10_find_uhf_wfn_restores_U {W N : Type} (K : UhfKernels W N)
    (sys : UhfHSystem) (cplx : Bool) (ueff : ℚ) (ninit nit_max : Nat)
    (alpha deps : ℚ) :
    (find_uhf_wfn K sys cplx ueff ninit nit_max alpha deps).1 = sys := by
  unfold find_uhf_wfn
  dsimp only
  split <;> rfl

end Pauxy
